import Mathlib

set_option autoImplicit false

/-!
Shallow embedding of the note-taking service for specification checking.

Frontend sources embedded here:
  frontend/app/(auth)/actions.ts      - signupAction, signinAction, logoutAction
  frontend/shared/lib/api/auth.ts     - signup, signin, logout API calls and schemas
  frontend/proxy.ts                   - route-protection proxy
  frontend/shared/lib/api/client.ts   - apiRequest, apiRequestClient
  frontend/shared/lib/api/schemas.ts  - noteInputSchema, categoryInputSchema

The Python backend is not part of the repository files; its behaviour
(ownership-scoped queries, per-owner category uniqueness, rate limiting,
category note-count caching) is modelled from docs/backend/notes_spec.md and
docs/backend/auth_spec.md, as marked on each definition.
-/

namespace NotesApp

/-! ## JSON values and zod-style parsing -/

/-- JSON values as the fetch responses and zod schemas see them. Numbers are
modelled as integers: no claim here depends on fractional values. -/
inductive Json where
  | null : Json
  | bool (b : Bool) : Json
  | num (n : Int) : Json
  | str (s : String) : Json
  | arr (elems : List Json) : Json
  | obj (fields : List (String × Json)) : Json
deriving Repr

/-- Lookup of a field in an association list of JSON object fields. -/
def lookupField : List (String × Json) → String → Option Json
  | [], _ => none
  | (k, v) :: rest, key => if k = key then some v else lookupField rest key

/-- Field access on a JSON value: a field of an object, nothing otherwise. -/
def getField : Json → String → Option Json
  | .obj fs, key => lookupField fs key
  | _, _ => none

/-- Keep only the object fields whose name is in `keys` (other values are
returned unchanged). Used to state that a schema reads only its own fields. -/
def restrictFields (j : Json) (keys : List String) : Json :=
  match j with
  | .obj fs => .obj (fs.filter (fun p => keys.contains p.1))
  | other => other

/-- Split a character list on a separator, keeping empty pieces. -/
def splitOnChar (sep : Char) : List Char → List (List Char)
  | [] => [[]]
  | c :: rest =>
      if c = sep then [] :: splitOnChar sep rest
      else
        match splitOnChar sep rest with
        | piece :: pieces => (c :: piece) :: pieces
        | [] => [[c]]

/-- Abstraction of the zod email validator used by `z.string().email()`:
exactly one at sign separating a nonempty local part from a nonempty domain
that contains a dot, and no spaces. No claim settled in this file depends on
the exact extension of the email regex, only on the validator being a fixed
total predicate on strings. -/
def zodIsEmail (s : String) : Bool :=
  match splitOnChar '@' s.data with
  | [user, host] =>
      !user.isEmpty && !host.isEmpty && host.contains '.' && !s.data.contains ' '
  | _ => false

namespace Frontend

/-! ## Cookies and server-action effects (frontend/app/(auth)/actions.ts) -/

/-- Options of a cookie as `cookieStore.set` receives them. -/
structure Cookie where
  name : String
  value : String
  httpOnly : Bool
  secure : Bool
  sameSite : String
  maxAge : Nat
  path : String
deriving Repr, DecidableEq

/-- Description of one HTTP request the frontend issues to the backend API.
The environment-dependent base URL is kept separate from the endpoint path. -/
structure ApiCall where
  method : String
  endpoint : String
  authorization : Option String
  body : List (String × String)
deriving Repr, DecidableEq

/-- What a server action resolves to: an error state returned to the form, or
a redirect. -/
inductive ActionOutcome where
  | errorState (msg : String) : ActionOutcome
  | redirect (url : String) : ActionOutcome
deriving Repr, DecidableEq

/-- Observable effects of one server-action invocation: the outcome, the
cookies it set, the cookies it deleted, and the API requests it issued. -/
structure ActionResult where
  outcome : ActionOutcome
  cookiesSet : List Cookie
  cookiesDeleted : List String
  apiCalls : List ApiCall
deriving Repr, DecidableEq

/-! ## Auth API functions (frontend/shared/lib/api/auth.ts) -/

/-- Response of POST /api/auth/signup/ as `signupResponseSchema` admits it:
an object with `id` (number), `email` (email string) and `created_at`
(string) - and nothing else. -/
structure SignupResponse where
  id : Int
  email : String
  created_at : String
deriving Repr, DecidableEq

/-- Response of POST /api/auth/signin/ as `signinResponseSchema` admits it. -/
structure SigninResponse where
  access_token : String
  refresh_token : String
  token_type : String
deriving Repr, DecidableEq

/-- The field names `signupResponseSchema` is built from. -/
def signupResponseFields : List String := ["id", "email", "created_at"]

/-- Embeds `signupResponseSchema.parse`: requires `id` to be a number,
`email` an email string, `created_at` a string; unknown fields are ignored
and do not appear in the result. -/
def signupResponseParse (j : Json) : Option SignupResponse :=
  match getField j "id", getField j "email", getField j "created_at" with
  | some (.num n), some (.str e), some (.str c) =>
      if zodIsEmail e then some ⟨n, e, c⟩ else none
  | _, _, _ => none

/-- The request `signup` issues (frontend/shared/lib/api/auth.ts). -/
def signupCall (email password : String) : ApiCall :=
  { method := "POST", endpoint := "/api/auth/signup/", authorization := none,
    body := [("email", email), ("password", password)] }

/-- The request `signin` issues (frontend/shared/lib/api/auth.ts). -/
def signinCall (email password : String) : ApiCall :=
  { method := "POST", endpoint := "/api/auth/signin/", authorization := none,
    body := [("email", email), ("password", password)] }

/-- The request the `logout` API function issues
(frontend/shared/lib/api/auth.ts): POST /api/auth/logout/ with the refresh
token in the body and the access token in the Authorization header. -/
def logout (accessToken refreshToken : String) : ApiCall :=
  { method := "POST", endpoint := "/api/auth/logout/",
    authorization := some ("Bearer " ++ accessToken),
    body := [("refresh_token", refreshToken)] }

/-! ## Server actions (frontend/app/(auth)/actions.ts) -/

/-- Validation by `signupSchema`: email must pass the zod email check,
password must have at least 8 characters. On failure the first issue's
message is returned, as `error.errors[0].message` is in the action. -/
def validateSignup (email password : Option String) : Except String Unit :=
  match email with
  | none => .error "Required"
  | some e =>
      if !zodIsEmail e then .error "Please enter a valid email address"
      else match password with
        | none => .error "Required"
        | some p =>
            if p.length < 8 then .error "Password must be at least 8 characters"
            else .ok ()

/-- Validation by `signinSchema`: email must pass the zod email check,
password must be nonempty. -/
def validateSignin (email password : Option String) : Except String Unit :=
  match email with
  | none => .error "Required"
  | some e =>
      if !zodIsEmail e then .error "Please enter a valid email address"
      else match password with
        | none => .error "Required"
        | some p => if p.length < 1 then .error "Password is required" else .ok ()

/-- Embeds `signupAction`. `email` and `password` are the form fields (none
when absent), `api` the outcome of the awaited `signup` call (the error
message of the thrown Error, or the parsed response). On success the action
redirects to the login page; it never touches the cookie store. -/
def signupAction (email password : Option String)
    (api : Except String SignupResponse) : ActionResult :=
  match validateSignup email password with
  | .error msg => ⟨.errorState msg, [], [], []⟩
  | .ok () =>
      match api with
      | .error msg =>
          ⟨.errorState msg, [], [], [signupCall (email.getD "") (password.getD "")]⟩
      | .ok _ =>
          ⟨.redirect "/login?success=account-created", [], [],
           [signupCall (email.getD "") (password.getD "")]⟩

/-- The access-token cookie `signinAction` sets: httpOnly, 15 minutes. -/
def accessTokenCookie (value : String) (isProd : Bool) : Cookie :=
  { name := "access_token", value := value, httpOnly := true, secure := isProd,
    sameSite := "lax", maxAge := 15 * 60, path := "/" }

/-- The refresh-token cookie `signinAction` sets: httpOnly, 7 days. -/
def refreshTokenCookie (value : String) (isProd : Bool) : Cookie :=
  { name := "refresh_token", value := value, httpOnly := true, secure := isProd,
    sameSite := "lax", maxAge := 7 * 24 * 60 * 60, path := "/" }

/-- Embeds `signinAction`. `redirectParam` is `formData.get` of the redirect
field; the final redirect goes there unless it is missing, empty (falsy) or
equal to the login path. On a successful `signin` call the two httpOnly
token cookies are set. -/
def signinAction (email password redirectParam : Option String) (isProd : Bool)
    (api : Except String SigninResponse) : ActionResult :=
  match validateSignin email password with
  | .error msg => ⟨.errorState msg, [], [], []⟩
  | .ok () =>
      match api with
      | .error msg =>
          ⟨.errorState msg, [], [], [signinCall (email.getD "") (password.getD "")]⟩
      | .ok tokens =>
          ⟨.redirect
             (match redirectParam with
              | some r => if r ≠ "" ∧ r ≠ "/login" then r else "/"
              | none => "/"),
           [accessTokenCookie tokens.access_token isProd,
            refreshTokenCookie tokens.refresh_token isProd],
           [], [signinCall (email.getD "") (password.getD "")]⟩

/-- Embeds `logoutAction` exactly as written: it deletes the two auth cookies
and redirects to the login page. It makes no API request - in particular it
never invokes the `logout` API function. -/
def logoutAction : ActionResult :=
  ⟨.redirect "/login", [], ["access_token", "refresh_token"], []⟩

/-! ## Route-protection proxy (frontend/proxy.ts) -/

/-- A matched request as the proxy sees it: the pathname and the value of the
access_token cookie (`none` when the request carries no such cookie). -/
structure ProxyRequest where
  pathname : String
  accessToken : Option String
deriving Repr, DecidableEq

/-- What the proxy resolves a request to: pass-through
(`NextResponse.next()`) or a redirect with query parameters. -/
inductive ProxyResponse where
  | next : ProxyResponse
  | redirect (path : String) (params : List (String × String)) : ProxyResponse
deriving Repr, DecidableEq

/-- The public routes of the proxy. -/
def publicRoutes : List String := ["/login", "/signup"]

/-- JavaScript `pathname.startsWith(other)`, computed on the character lists
so that concrete instances reduce inside the kernel. -/
def startsWith (s other : String) : Bool :=
  other.data.isPrefixOf s.data

/-- JavaScript truthiness of the optional cookie value as the proxy tests it:
an absent cookie and an empty-string value are both falsy. -/
def jsTruthy : Option String → Bool
  | none => false
  | some s => !(s = "")

/-- Embeds `proxy` from frontend/proxy.ts, clause for clause: health check
passes, unauthenticated requests to non-public routes redirect to the login
page with the original pathname in the redirect parameter, authenticated
requests to public routes redirect home, everything else passes. -/
def proxy (request : ProxyRequest) : ProxyResponse :=
  let isPublicRoute := publicRoutes.any (fun route => startsWith request.pathname route)
  if startsWith request.pathname "/api/health" then .next
  else if !jsTruthy request.accessToken && !isPublicRoute then
    .redirect "/login" [("redirect", request.pathname)]
  else if jsTruthy request.accessToken && isPublicRoute then
    .redirect "/" []
  else .next

/-- Follows the claim's words for the route-protection case split, with
cookie presence read literally as presence (`Option.isSome`), ignoring the
cookie's value. -/
def proxyClaimedSpec (request : ProxyRequest) : ProxyResponse :=
  let isPublicRoute := publicRoutes.any (fun route => startsWith request.pathname route)
  if startsWith request.pathname "/api/health" then .next
  else if !request.accessToken.isSome && !isPublicRoute then
    .redirect "/login" [("redirect", request.pathname)]
  else if request.accessToken.isSome && isPublicRoute then
    .redirect "/" []
  else .next

/-- Follows the amended claim's words: the same case split, with presence of
an access_token cookie read as presence with a non-empty value, which is how
JavaScript truthiness evaluates the cookie. -/
def proxyAmendedSpec (request : ProxyRequest) : ProxyResponse :=
  let isPublicRoute := publicRoutes.any (fun route => startsWith request.pathname route)
  if startsWith request.pathname "/api/health" then .next
  else if !jsTruthy request.accessToken && !isPublicRoute then
    .redirect "/login" [("redirect", request.pathname)]
  else if jsTruthy request.accessToken && isPublicRoute then
    .redirect "/" []
  else .next

/-! ## API client (frontend/shared/lib/api/client.ts) -/

/-- An HTTP response as the client wrappers consume it: the status, the
status text, and the JSON value of the body (`none` when `response.json()`
rejects). -/
structure HttpResponse where
  status : Nat
  statusText : String
  body : Option Json
deriving Repr

/-- The `response.ok` flag: status in the 200-299 range. -/
def responseOk (r : HttpResponse) : Bool :=
  200 ≤ r.status && r.status ≤ 299

/-- What one call of `apiRequest`/`apiRequestClient` resolves to: a parsed
value (`success none` models the `undefined` returned for 204), a thrown
`ApiClientError` carrying the HTTP status, or a thrown plain `Error`. -/
inductive RequestOutcome (T : Type) where
  | success (value : Option T) : RequestOutcome T
  | apiError (status : Nat) (message : String) : RequestOutcome T
  | failure (message : String) : RequestOutcome T
deriving Repr

/-- Embeds `apiErrorSchema.safeParse`: an object whose `detail` and `message`
fields, when present, are strings; both optional; anything else fails. -/
def apiErrorParse (j : Json) : Option (Option String × Option String) :=
  match j with
  | .obj _ =>
      (match getField j "detail", getField j "message" with
       | none, none => some (none, none)
       | none, some (.str m) => some (none, some m)
       | some (.str d), none => some (some d, none)
       | some (.str d), some (.str m) => some (some d, some m)
       | _, _ => none)
  | _ => none

/-- JavaScript `a || b` on an optional string: the string when it is present
and nonempty (truthy), the fallback otherwise. -/
def jsOrElse (a : Option String) (b : String) : String :=
  match a with
  | some s => if s = "" then b else s
  | none => b

/-- The error message both wrappers build for a non-ok response: start from
`HTTP status`; if the body parses as JSON and matches `apiErrorSchema`, prefer
its truthy `detail`, then its truthy `message`; if the body fails to parse,
prefer a truthy `statusText`. -/
def errorMessageFor (r : HttpResponse) : String :=
  let base := "HTTP " ++ toString r.status
  match r.body with
  | some j =>
      (match apiErrorParse j with
       | some (detail, message) => jsOrElse detail (jsOrElse message base)
       | none => base)
  | none => jsOrElse (some r.statusText) base

/-- Embeds `apiRequest` from frontend/shared/lib/api/client.ts. The zod
schema is a partial parsing function; the fetch, headers and URL building
carry no logic the claims depend on beyond the response handling embedded
here. A non-ok response throws an `ApiClientError` with the response status;
204 returns `undefined`; otherwise the body must parse and validate, and a
validation failure throws a plain `Error` wrapped by the outer catch. -/
def apiRequest {T : Type} (schema : Json → Option T) (r : HttpResponse) :
    RequestOutcome T :=
  if !responseOk r then .apiError r.status (errorMessageFor r)
  else if r.status = 204 then .success none
  else
    match r.body with
    | none => .failure "API request failed: body is not JSON"
    | some j =>
        match schema j with
        | none => .failure "API request failed: Schema validation failed"
        | some v => .success (some v)

/-- Embeds `apiRequestClient`: same response handling as `apiRequest`, with
the request routed through the Next.js proxy instead of the API base URL. -/
def apiRequestClient {T : Type} (schema : Json → Option T) (r : HttpResponse) :
    RequestOutcome T :=
  if !responseOk r then .apiError r.status (errorMessageFor r)
  else if r.status = 204 then .success none
  else
    match r.body with
    | none => .failure "API request failed: body is not JSON"
    | some j =>
        match schema j with
        | none => .failure "API request failed: Schema validation failed"
        | some v => .success (some v)

/-! ## Input schemas (frontend/shared/lib/api/schemas.ts) -/

/-- Parsed value of `noteInputSchema`. -/
structure NoteInput where
  title : Option String
  content : Option String
  category_id : Option (Option Int)
deriving Repr, DecidableEq

/-- Parsed value of `categoryInputSchema`. -/
structure CategoryInput where
  name : String
  color : String
deriving Repr, DecidableEq

/-- Optional string field with a maximum length, as `z.string().max(n).optional()`
parses it: absent is fine, present must be a string of length at most `n`. -/
def parseOptStringMax (n : Nat) : Option Json → Option (Option String)
  | none => some none
  | some (.str s) => if s.length ≤ n then some (some s) else none
  | some _ => none

/-- Optional nullable number field, as `z.number().nullable().optional()`
parses it. -/
def parseOptNullableNum : Option Json → Option (Option (Option Int))
  | none => some none
  | some .null => some (some none)
  | some (.num n) => some (some (some n))
  | some _ => none

/-- Embeds `noteInputSchema`: an object whose optional `title` has at most
255 characters, whose optional `content` has at most 100000 characters, and
whose optional `category_id` is a number or null. -/
def noteInputParse (j : Json) : Option NoteInput :=
  match j with
  | .obj _ =>
      (match parseOptStringMax 255 (getField j "title"),
             parseOptStringMax 100000 (getField j "content"),
             parseOptNullableNum (getField j "category_id") with
       | some title, some content, some categoryId =>
           some ⟨title, content, categoryId⟩
       | _, _, _ => none)
  | _ => none

/-- One hexadecimal digit, as the character class 0-9A-Fa-f matches it. -/
def hexDigit (c : Char) : Bool :=
  ('0' ≤ c && c ≤ '9') || ('A' ≤ c && c ≤ 'F') || ('a' ≤ c && c ≤ 'f')

/-- Full match of the anchored color regex of `categoryInputSchema`: a hash
sign followed by exactly six hexadecimal digits. -/
def hexColorMatch (s : String) : Bool :=
  match s.data with
  | c :: rest => c = '#' && rest.length = 6 && rest.all hexDigit
  | [] => false

/-- Specification-style reading of being a hex color: seven characters, the
first a hash sign, each of the remaining six a hexadecimal digit. Stated
independently of `hexColorMatch` to compare the implementation against it. -/
def hexColorSpec (s : String) : Prop :=
  s.length = 7 ∧ s.data.head? = some '#' ∧ ∀ c ∈ s.data.tail, hexDigit c = true

/-- Embeds `categoryInputSchema`: an object whose `name` is a string of 1 to
100 characters and whose `color` is a string matching the hex color regex. -/
def categoryInputParse (j : Json) : Option CategoryInput :=
  match j with
  | .obj _ =>
      (match getField j "name", getField j "color" with
       | some (.str name), some (.str color) =>
           if 1 ≤ name.length && name.length ≤ 100 && hexColorMatch color then
             some ⟨name, color⟩
           else none
       | _, _ => none)
  | _ => none

end Frontend

namespace Backend

/-! ## Backend data model

The Python backend is not among the repository's files; everything in this
namespace is modelled from docs/backend/notes_spec.md and
docs/backend/auth_spec.md. -/

/-- Modelled from the spec: a Note row (notes_spec.md 2.2) with its owner and
its nullable category. The opaque UUID identifier is modelled as a plain
identifier; only equality of identifiers matters to the claims. -/
structure Note where
  id : Nat
  userId : Nat
  categoryId : Option Nat
deriving Repr, DecidableEq

/-- Modelled from the spec: a Category row (notes_spec.md 2.1) with its owner,
name and color. -/
structure Category where
  id : Nat
  userId : Nat
  name : String
  color : String
deriving Repr, DecidableEq

/-- Modelled from the spec: the relational store holding the Note and
Category rows. -/
structure Db where
  notes : List Note
  categories : List Category
deriving Repr, DecidableEq

/-! ## Tenant isolation (notes_spec.md 6.1)

Every query is scoped by user: the queryset is filtered on the requesting
user before the identifier lookup, so a row of another owner is simply not
found. -/

/-- Modelled from the spec: lookup of a note by identifier inside the
ownership-filtered queryset, the only read path notes_spec.md 6.1 allows. -/
def findNote (db : Db) (userId id : Nat) : Option Note :=
  (db.notes.filter (fun n => n.userId = userId)).find? (fun n => n.id = id)

/-- Modelled from the spec: lookup of a category by identifier inside the
ownership-filtered queryset. -/
def findCategory (db : Db) (userId id : Nat) : Option Category :=
  (db.categories.filter (fun c => c.userId = userId)).find? (fun c => c.id = id)

/-- Modelled from the spec: HTTP status of GET /api/notes/:id - 200 when the
scoped lookup finds the row, 404 otherwise. -/
def retrieveNoteStatus (db : Db) (userId id : Nat) : Nat :=
  match findNote db userId id with
  | some _ => 200
  | none => 404

/-- Modelled from the spec: HTTP status of PATCH /api/notes/:id - 200 when
the scoped lookup finds the row, 404 otherwise. -/
def updateNoteStatus (db : Db) (userId id : Nat) : Nat :=
  match findNote db userId id with
  | some _ => 200
  | none => 404

/-- Modelled from the spec: HTTP status of DELETE /api/notes/:id - 204 when
the scoped lookup finds the row, 404 otherwise. -/
def deleteNoteStatus (db : Db) (userId id : Nat) : Nat :=
  match findNote db userId id with
  | some _ => 204
  | none => 404

/-- Modelled from the spec: HTTP status of GET /api/categories/:id. -/
def retrieveCategoryStatus (db : Db) (userId id : Nat) : Nat :=
  match findCategory db userId id with
  | some _ => 200
  | none => 404

/-- Modelled from the spec: HTTP status of PATCH /api/categories/:id. -/
def updateCategoryStatus (db : Db) (userId id : Nat) : Nat :=
  match findCategory db userId id with
  | some _ => 200
  | none => 404

/-- Modelled from the spec: HTTP status of DELETE /api/categories/:id for a
non-protected category. -/
def deleteCategoryStatus (db : Db) (userId id : Nat) : Nat :=
  match findCategory db userId id with
  | some _ => 204
  | none => 404

/-! ## Category creation and per-owner uniqueness (notes_spec.md 2.1, 6.3) -/

/-- Modelled from the spec: serializer validation of the category input -
name of 1 to 100 characters, color a valid hex color (notes_spec.md 2.1 and
6.2), the same bounds the frontend categoryInputSchema enforces. -/
def validCategoryInput (name color : String) : Bool :=
  1 ≤ name.length && name.length ≤ 100 && Frontend.hexColorMatch color

/-- An identifier not used by any existing category. -/
def freshCategoryId (db : Db) : Nat :=
  (db.categories.map (fun c => c.id)).foldr max 0 + 1

/-- Modelled from the spec: POST /api/categories - serializer validation,
then the per-owner uniqueness check backed by the composite unique
constraint on the pair of owner and name (notes_spec.md 2.1, 6.3); a
violation of either returns 400 and writes nothing, success appends the new
row. -/
def createCategory (db : Db) (userId : Nat) (name color : String) :
    Except Nat Db :=
  if !validCategoryInput name color then .error 400
  else if db.categories.any (fun c => c.userId = userId && c.name = name) then
    .error 400
  else
    .ok { db with
          categories := db.categories ++ [⟨freshCategoryId db, userId, name, color⟩] }

/-! ## Rate limiting (auth_spec.md 5.3)

Modelled from the spec: a distributed counter per scope and window, kept in
the shared cache. A key is the pair of the scope identifier and the index of
the current window; the key's TTL is the window length, so a key of an
earlier window is dead and the count of a fresh window starts at zero. The
post-increment count is compared against the limit, and the retry-after hint
is the remaining TTL of the key. -/

/-- Result of one rate-limiter check. -/
inductive RateResult where
  | allowed : RateResult
  | throttled (retryAfterSeconds : Nat) : RateResult
deriving Repr, DecidableEq

/-- Shared counter store of the rate limiter: counts keyed by scope and
window index. -/
structure RateState where
  counts : List ((String × Nat) × Nat)
deriving Repr, DecidableEq

/-- Count stored for a key; a key that is absent (never written, or written
for another window and expired) counts as zero. -/
def rateCount : List ((String × Nat) × Nat) → String × Nat → Nat
  | [], _ => 0
  | (k, v) :: rest, key => if k = key then v else rateCount rest key

/-- Store a count for a key, replacing any earlier entry for it. -/
def rateStore (entries : List ((String × Nat) × Nat)) (key : String × Nat)
    (v : Nat) : List ((String × Nat) × Nat) :=
  (key, v) :: entries.filter (fun p => p.1 ≠ key)

/-- Modelled from the spec: one rate-limiter check at time `now` - atomically
increment the counter keyed by the scope and the current window index; if the
post-increment count exceeds the limit the request is throttled with the
key's remaining TTL as the retry-after hint, otherwise it is allowed. -/
def rateCheck (st : RateState) (scope : String) (limit windowSeconds now : Nat) :
    RateResult × RateState :=
  let key := (scope, now / windowSeconds)
  let newCount := rateCount st.counts key + 1
  let st2 : RateState := ⟨rateStore st.counts key newCount⟩
  if limit < newCount then
    (.throttled (windowSeconds - now % windowSeconds), st2)
  else
    (.allowed, st2)

/-- Run one request per element of `times`, in order, threading the store. -/
def rateRun (st : RateState) (scope : String) (limit windowSeconds : Nat) :
    List Nat → List RateResult × RateState
  | [] => ([], st)
  | t :: rest =>
      let step := rateCheck st scope limit windowSeconds t
      let tail := rateRun step.2 scope limit windowSeconds rest
      (step.1 :: tail.1, tail.2)

/-! ## Category note-count cache (notes_spec.md 7.1)

Modelled from the spec: counts cached in the shared store under the
category's key. Increment initializes an absent entry to one, decrement does
not go below zero, and the read path recomputes the true count from the
relational store on a miss and repopulates the entry with the refresh TTL.
The TTL itself is modelled by eviction: an entry whose TTL elapsed is gone,
and a gone entry is a miss. -/

/-- Cached note counts keyed by category identifier. -/
structure CacheState where
  entries : List (Nat × Nat)
deriving Repr, DecidableEq

/-- Cached value for a category, a miss when absent. -/
def cacheGet : List (Nat × Nat) → Nat → Option Nat
  | [], _ => none
  | (k, v) :: rest, key => if k = key then some v else cacheGet rest key

/-- Write a value for a category, replacing any earlier entry. -/
def cacheSet (c : CacheState) (key v : Nat) : CacheState :=
  ⟨(key, v) :: c.entries.filter (fun p => p.1 ≠ key)⟩

/-- Remove the entry of a category: deletion on category removal, and also
how an elapsed TTL leaves the store. -/
def cacheEvict (c : CacheState) (key : Nat) : CacheState :=
  ⟨c.entries.filter (fun p => p.1 ≠ key)⟩

/-- Modelled from the spec: the true backing-store count the fallback
queries - the notes of this owner that reference the category
(notes_spec.md 7.1, cache fallback). -/
def trueCount (db : Backend.Db) (userId cid : Nat) : Nat :=
  (db.notes.filter (fun n => n.userId = userId && n.categoryId = some cid)).length

/-- Modelled from the spec: `cache.incr(key, 1)` - increment, or initialize
an absent entry to one (notes_spec.md 7.1, cache update pattern). -/
def incrCount (c : CacheState) (cid : Nat) : CacheState :=
  match cacheGet c.entries cid with
  | some v => cacheSet c cid (v + 1)
  | none => cacheSet c cid 1

/-- Modelled from the spec: `cache.decr(key, 1)` - decrement without going
below zero, an absent entry becoming zero (notes_spec.md 7.1). -/
def decrCount (c : CacheState) (cid : Nat) : CacheState :=
  match cacheGet c.entries cid with
  | some v => cacheSet c cid (v - 1)
  | none => cacheSet c cid 0

/-- Modelled from the claim's words (spec section 4.4): increment that, on a
miss, first recomputes the true count from the backing store, writes it, and
then applies the delta. Stated only to compare against `incrCount`, the
pattern the backend documentation gives. -/
def incrCountClaimed (db : Backend.Db) (userId : Nat) (c : CacheState)
    (cid : Nat) : CacheState :=
  match cacheGet c.entries cid with
  | some v => cacheSet c cid (v + 1)
  | none => cacheSet c cid (trueCount db userId cid + 1)

/-- Modelled from the spec: the read path - a hit returns the cached value,
a miss queries the backing store for the true count and repopulates the
entry with the refresh TTL (notes_spec.md 7.1, cache fallback). -/
def readCount (db : Backend.Db) (userId : Nat) (c : CacheState) (cid : Nat) :
    Nat × CacheState :=
  match cacheGet c.entries cid with
  | some v => (v, c)
  | none =>
      let n := trueCount db userId cid
      (n, cacheSet c cid n)

/-- A note mutation the aggregation layer orchestrates (notes_spec.md 7.1,
cache invalidation list). -/
inductive NoteOp where
  | create (noteId : Nat) (cid : Option Nat) : NoteOp
  | delete (noteId : Nat) : NoteOp
  | reassign (noteId : Nat) (newCid : Option Nat) : NoteOp
deriving Repr, DecidableEq

/-- Modelled from the spec: one note mutation of owner `userId` applied to
the store and the cache together - create increments the target category,
delete decrements the old one, reassignment decrements the old and
increments the new when the category changed. -/
def applyOp (userId : Nat) (s : Backend.Db × CacheState) (op : NoteOp) :
    Backend.Db × CacheState :=
  match op with
  | .create noteId cid =>
      ({ s.1 with notes := s.1.notes ++ [⟨noteId, userId, cid⟩] },
       match cid with
       | some c => incrCount s.2 c
       | none => s.2)
  | .delete noteId =>
      (match Backend.findNote s.1 userId noteId with
       | none => s
       | some n =>
           ({ s.1 with
              notes := s.1.notes.filter (fun m => !(m.id = noteId && m.userId = userId)) },
            match n.categoryId with
            | some c => decrCount s.2 c
            | none => s.2))
  | .reassign noteId newCid =>
      (match Backend.findNote s.1 userId noteId with
       | none => s
       | some n =>
           if n.categoryId = newCid then s
           else
             ({ s.1 with
                notes := s.1.notes.map (fun m =>
                  if m.id = noteId && m.userId = userId then
                    { m with categoryId := newCid }
                  else m) },
              (match n.categoryId, newCid with
               | some cOld, some cNew => incrCount (decrCount s.2 cOld) cNew
               | some cOld, none => decrCount s.2 cOld
               | none, some cNew => incrCount s.2 cNew
               | none, none => s.2)))

/-- Apply a finite sequence of note mutations in order. -/
def applyOps (userId : Nat) (s : Backend.Db × CacheState) (ops : List NoteOp) :
    Backend.Db × CacheState :=
  ops.foldl (applyOp userId) s

end Backend

/-! ## Helper lemmas -/

theorem lookupField_filter (fs : List (String × Json)) (keys : List String)
    (k : String) (hk : keys.contains k = true) :
    lookupField (fs.filter (fun p => keys.contains p.1)) k = lookupField fs k := by
  induction fs with
  | nil => rfl
  | cons p rest ih =>
      obtain ⟨a, b⟩ := p
      rw [List.filter_cons]
      by_cases hm : keys.contains a = true
      · rw [if_pos hm]
        by_cases hak : a = k
        · subst hak
          simp [lookupField]
        · simp only [lookupField, if_neg hak, ih]
      · rw [if_neg hm]
        have hak : a ≠ k := by
          rintro rfl
          exact hm hk
        rw [ih]
        simp only [lookupField, if_neg hak]

theorem getField_restrict (j : Json) (keys : List String) (k : String)
    (hk : keys.contains k = true) :
    getField (restrictFields j keys) k = getField j k := by
  cases j with
  | obj fs => exact lookupField_filter fs keys k hk
  | null => rfl
  | bool b => rfl
  | num n => rfl
  | str s => rfl
  | arr elems => rfl

/-! ## Claim theorems -/

/-- C1: the logout server action, as written, performs no request to the
backend: it deletes the two auth cookies and redirects to the login page,
while the (never invoked) `logout` API function is the one that would submit
the stored refresh token to POST /api/auth/logout/ for revocation. This
theorem documents the divergence between `logoutAction` and the
specification's logout scenario: the refresh token is merely discarded
client-side and is never revoked server-side. -/
theorem logoutAction_never_calls_logout_api :
    Frontend.logoutAction.apiCalls = [] ∧
    Frontend.logoutAction.cookiesDeleted = ["access_token", "refresh_token"] ∧
    Frontend.logoutAction.outcome = .redirect "/login" ∧
    Frontend.logout "a" "r" =
      { method := "POST", endpoint := "/api/auth/logout/",
        authorization := some "Bearer a", body := [("refresh_token", "r")] } :=
  ⟨rfl, rfl, rfl, rfl⟩

/-- C3: every successful signin stores the access token in an httpOnly cookie
with maxAge exactly 15*60 seconds and the refresh token in an httpOnly cookie
with maxAge exactly 7*24*60*60 seconds. -/
theorem signinAction_cookie_lifetimes (email password redirectParam : Option String)
    (isProd : Bool) (tokens : Frontend.SigninResponse)
    (hvalid : Frontend.validateSignin email password = .ok ()) :
    (Frontend.signinAction email password redirectParam isProd (.ok tokens)).cookiesSet =
      [Frontend.accessTokenCookie tokens.access_token isProd,
       Frontend.refreshTokenCookie tokens.refresh_token isProd] ∧
    (Frontend.accessTokenCookie tokens.access_token isProd).name = "access_token" ∧
    (Frontend.accessTokenCookie tokens.access_token isProd).maxAge = 15 * 60 ∧
    (Frontend.accessTokenCookie tokens.access_token isProd).httpOnly = true ∧
    (Frontend.refreshTokenCookie tokens.refresh_token isProd).name = "refresh_token" ∧
    (Frontend.refreshTokenCookie tokens.refresh_token isProd).maxAge = 7 * 24 * 60 * 60 ∧
    (Frontend.refreshTokenCookie tokens.refresh_token isProd).httpOnly = true := by
  refine ⟨?_, rfl, rfl, rfl, rfl, rfl, rfl⟩
  simp [Frontend.signinAction, hvalid]

/-- Witness for C3 at a concrete signin. -/
theorem signinAction_cookie_lifetimes_witness :
    (Frontend.signinAction (some "a@b.co") (some "pw") none false
        (.ok ⟨"at", "rt", "Bearer"⟩)).cookiesSet =
      [Frontend.accessTokenCookie "at" false,
       Frontend.refreshTokenCookie "rt" false] ∧
    (Frontend.accessTokenCookie "at" false).name = "access_token" ∧
    (Frontend.accessTokenCookie "at" false).maxAge = 15 * 60 ∧
    (Frontend.accessTokenCookie "at" false).httpOnly = true ∧
    (Frontend.refreshTokenCookie "rt" false).name = "refresh_token" ∧
    (Frontend.refreshTokenCookie "rt" false).maxAge = 7 * 24 * 60 * 60 ∧
    (Frontend.refreshTokenCookie "rt" false).httpOnly = true :=
  signinAction_cookie_lifetimes (some "a@b.co") (some "pw") none false
    ⟨"at", "rt", "Bearer"⟩ rfl

/-- C4: signup issues no tokens. The signup action never sets or deletes a
cookie whatever the input and outcome; a successful signup redirects to the
login page; and the signup response schema reads only the fields id, email
and created_at - restricting a response to those fields does not change the
parse result, and no token field is among them. -/
theorem signup_issues_no_tokens :
    (∀ (email password : Option String) (api : Except String Frontend.SignupResponse),
        (Frontend.signupAction email password api).cookiesSet = [] ∧
        (Frontend.signupAction email password api).cookiesDeleted = []) ∧
    (∀ (email password : Option String) (r : Frontend.SignupResponse),
        Frontend.validateSignup email password = .ok () →
        (Frontend.signupAction email password (.ok r)).outcome =
          .redirect "/login?success=account-created") ∧
    (∀ (j : Json) (r : Frontend.SignupResponse),
        Frontend.signupResponseParse j = some r →
        Frontend.signupResponseParse (restrictFields j Frontend.signupResponseFields) =
          some r) ∧
    Frontend.signupResponseFields = ["id", "email", "created_at"] ∧
    Frontend.signupResponseFields.contains "access_token" = false ∧
    Frontend.signupResponseFields.contains "refresh_token" = false ∧
    Frontend.signupResponseFields.contains "token" = false := by
  refine ⟨?_, ?_, ?_, rfl, rfl, rfl, rfl⟩
  · intro email password api
    unfold Frontend.signupAction
    rcases Frontend.validateSignup email password with msg | u
    · exact ⟨rfl, rfl⟩
    · cases u
      rcases api with msg | r <;> exact ⟨rfl, rfl⟩
  · intro email password r hvalid
    simp [Frontend.signupAction, hvalid]
  · intro j r h
    have h1 := getField_restrict j Frontend.signupResponseFields "id" (by decide)
    have h2 := getField_restrict j Frontend.signupResponseFields "email" (by decide)
    have h3 := getField_restrict j Frontend.signupResponseFields "created_at" (by decide)
    unfold Frontend.signupResponseParse at h ⊢
    rw [h1, h2, h3]
    exact h

/-- C8 counterexample: a request whose access_token cookie is present with an
empty value. JavaScript truthiness makes the proxy treat it as
unauthenticated and redirect a protected path to the login page, whereas the
claim's case split, reading cookie presence literally, predicts
pass-through. -/
theorem proxy_empty_cookie_counterexample :
    Frontend.proxy ⟨"/notes", some ""⟩ =
      .redirect "/login" [("redirect", "/notes")] ∧
    Frontend.proxyClaimedSpec ⟨"/notes", some ""⟩ = .next ∧
    Frontend.proxy ⟨"/notes", some ""⟩ ≠
      Frontend.proxyClaimedSpec ⟨"/notes", some ""⟩ := by
  refine ⟨by decide, by decide, by decide⟩

/-- C8 amended: the proxy is the total case split of the claim once cookie
presence is read as presence with a non-empty value (JavaScript truthiness):
health-check paths pass; without a truthy access_token cookie, a non-public
path redirects to the login page carrying the original pathname; with a
truthy cookie a public path redirects home; everything else passes. In
particular a request without a truthy access_token cookie never passes
through to a protected route. -/
theorem proxy_total_case_split (request : Frontend.ProxyRequest) :
    Frontend.proxy request = Frontend.proxyAmendedSpec request ∧
    (Frontend.proxy request = .next →
      Frontend.startsWith request.pathname "/api/health" = true ∨
      Frontend.publicRoutes.any
        (fun route => Frontend.startsWith request.pathname route) = true ∨
      Frontend.jsTruthy request.accessToken = true) := by
  constructor
  · rfl
  · intro h
    unfold Frontend.proxy at h
    by_cases hh : Frontend.startsWith request.pathname "/api/health"
    · exact Or.inl hh
    · by_cases hp : Frontend.publicRoutes.any
          (fun route => Frontend.startsWith request.pathname route)
      · exact Or.inr (Or.inl hp)
      · by_cases ht : Frontend.jsTruthy request.accessToken
        · exact Or.inr (Or.inr ht)
        · simp [hh, hp, ht] at h

theorem apiRequestClient_eq_apiRequest {T : Type} (schema : Json → Option T)
    (r : Frontend.HttpResponse) :
    Frontend.apiRequestClient schema r = Frontend.apiRequest schema r := rfl

theorem apiRequest_not_ok {T : Type} (schema : Json → Option T)
    (r : Frontend.HttpResponse) (h : Frontend.responseOk r = false) :
    Frontend.apiRequest schema r = .apiError r.status (Frontend.errorMessageFor r) := by
  unfold Frontend.apiRequest
  rw [h]
  rfl

theorem apiRequest_success_some {T : Type} (schema : Json → Option T)
    (r : Frontend.HttpResponse) (v : T)
    (hv : Frontend.apiRequest schema r = .success (some v)) :
    ∃ j, r.body = some j ∧ schema j = some v := by
  by_cases hok : Frontend.responseOk r = true
  · by_cases h204 : r.status = 204
    · simp [Frontend.apiRequest, hok, h204] at hv
    · cases hb : r.body with
      | none => simp [Frontend.apiRequest, hok, h204, hb] at hv
      | some j =>
          cases hs : schema j with
          | none => simp [Frontend.apiRequest, hok, h204, hb, hs] at hv
          | some v0 =>
              simp [Frontend.apiRequest, hok, h204, hb, hs] at hv
              exact ⟨j, rfl, by rw [hs, hv]⟩
  · have hok2 : Frontend.responseOk r = false := by simpa using hok
    simp [Frontend.apiRequest, hok2] at hv

theorem apiRequest_success_none {T : Type} (schema : Json → Option T)
    (r : Frontend.HttpResponse)
    (hv : Frontend.apiRequest schema r = .success none) : r.status = 204 := by
  by_cases hok : Frontend.responseOk r = true
  · by_cases h204 : r.status = 204
    · exact h204
    · cases hb : r.body with
      | none => simp [Frontend.apiRequest, hok, h204, hb] at hv
      | some j =>
          cases hs : schema j with
          | none => simp [Frontend.apiRequest, hok, h204, hb, hs] at hv
          | some v0 => simp [Frontend.apiRequest, hok, h204, hb, hs] at hv
  · have hok2 : Frontend.responseOk r = false := by simpa using hok
    simp [Frontend.apiRequest, hok2] at hv

/-- C9: the API client wrappers return a value only when the response body
validates against the supplied schema (a 204 response returns the undefined
value), and every non-2xx response resolves to an `ApiClientError` whose
status equals the HTTP status of the response; no unvalidated body is ever
returned. Both the server-side and the client-side wrapper satisfy this. -/
theorem apiRequest_validates_and_preserves_status :
    ∀ (T : Type) (schema : Json → Option T) (r : Frontend.HttpResponse),
      (Frontend.responseOk r = false →
          Frontend.apiRequest schema r =
            .apiError r.status (Frontend.errorMessageFor r) ∧
          Frontend.apiRequestClient schema r =
            .apiError r.status (Frontend.errorMessageFor r)) ∧
      (∀ v, Frontend.apiRequest schema r = .success (some v) →
          ∃ j, r.body = some j ∧ schema j = some v) ∧
      (Frontend.apiRequest schema r = .success none → r.status = 204) ∧
      (∀ v, Frontend.apiRequestClient schema r = .success (some v) →
          ∃ j, r.body = some j ∧ schema j = some v) ∧
      (Frontend.apiRequestClient schema r = .success none → r.status = 204) := by
  intro T schema r
  refine ⟨fun h => ⟨apiRequest_not_ok schema r h, ?_⟩,
          fun v hv => apiRequest_success_some schema r v hv,
          fun hv => apiRequest_success_none schema r hv,
          fun v hv => apiRequest_success_some schema r v
            ((apiRequestClient_eq_apiRequest schema r) ▸ hv),
          fun hv => apiRequest_success_none schema r
            ((apiRequestClient_eq_apiRequest schema r) ▸ hv)⟩
  rw [apiRequestClient_eq_apiRequest]
  exact apiRequest_not_ok schema r h

theorem hexColorMatch_iff (s : String) :
    Frontend.hexColorMatch s = true ↔ Frontend.hexColorSpec s := by
  have hlen : s.length = s.data.length := rfl
  unfold Frontend.hexColorMatch Frontend.hexColorSpec
  cases hd : s.data with
  | nil =>
      simp only [hlen, hd]
      simp
  | cons c rest =>
      simp only [hlen, hd]
      simp [List.all_eq_true, Bool.and_eq_true]
      constructor
      · rintro ⟨⟨hc, h6⟩, hall⟩
        exact ⟨by omega, hc, hall⟩
      · rintro ⟨h7, hc, hall⟩
        exact ⟨⟨hc, by omega⟩, hall⟩

theorem parseOptStringMax_sound (n : Nat) (o : Option Json) (t : Option String)
    (h : Frontend.parseOptStringMax n o = some t) :
    ∀ s, t = some s → s.length ≤ n := by
  intro s hs
  subst hs
  unfold Frontend.parseOptStringMax at h
  split at h
  · cases h
  · split at h
    · cases h
      assumption
    · cases h
  · cases h

/-- C10: the client-side input validators enforce the resource limits. A
parsed note input has a title of at most 255 characters and content of at
most 100000 characters whenever those optional fields are present, and the
empty object is accepted (both fields optional); a parsed category input has
a name of 1 to 100 characters and a hex color; and conversely every name and
color within those bounds is accepted, as is every title/content pair within
its bounds. -/
theorem input_schemas_enforce_limits :
    (∀ (j : Json) (i : Frontend.NoteInput), Frontend.noteInputParse j = some i →
        (∀ t, i.title = some t → t.length ≤ 255) ∧
        (∀ c, i.content = some c → c.length ≤ 100000)) ∧
    Frontend.noteInputParse (.obj []) = some ⟨none, none, none⟩ ∧
    (∀ (j : Json) (i : Frontend.CategoryInput),
        Frontend.categoryInputParse j = some i →
        1 ≤ i.name.length ∧ i.name.length ≤ 100 ∧ Frontend.hexColorSpec i.color) ∧
    (∀ name color : String,
        1 ≤ name.length → name.length ≤ 100 → Frontend.hexColorSpec color →
        Frontend.categoryInputParse
            (.obj [("name", .str name), ("color", .str color)]) =
          some ⟨name, color⟩) ∧
    (∀ t c : String, t.length ≤ 255 → c.length ≤ 100000 →
        Frontend.noteInputParse (.obj [("title", .str t), ("content", .str c)]) =
          some ⟨some t, some c, none⟩) := by
  refine ⟨?_, rfl, ?_, ?_, ?_⟩
  · intro j i h
    unfold Frontend.noteInputParse at h
    split at h
    · split at h
      · cases h
        rename_i h1 h2 h3
        exact ⟨parseOptStringMax_sound _ _ _ h1, parseOptStringMax_sound _ _ _ h2⟩
      · cases h
    · cases h
  · intro j i h
    unfold Frontend.categoryInputParse at h
    split at h
    · split at h
      · split at h
        · cases h
          rename_i hcond
          simp only [Bool.and_eq_true, decide_eq_true_eq] at hcond
          exact ⟨hcond.1.1, hcond.1.2, (hexColorMatch_iff _).mp hcond.2⟩
        · cases h
      · cases h
    · cases h
  · intro name color h1 h100 hspec
    have hm : Frontend.hexColorMatch color = true := (hexColorMatch_iff color).mpr hspec
    simp [Frontend.categoryInputParse, getField, lookupField, h1, h100, hm]
  · intro t c ht hc
    simp [Frontend.noteInputParse, getField, lookupField,
      Frontend.parseOptStringMax, Frontend.parseOptNullableNum, ht, hc]

theorem findNote_eq_none (db : Backend.Db) (userId id : Nat)
    (h : ∀ n ∈ db.notes, n.id = id → n.userId ≠ userId) :
    Backend.findNote db userId id = none := by
  unfold Backend.findNote
  rw [List.find?_eq_none]
  intro n hn
  simp only [List.mem_filter, decide_eq_true_eq] at hn
  simp only [decide_eq_true_eq]
  exact fun hid => h n hn.1 hid hn.2

theorem findCategory_eq_none (db : Backend.Db) (userId id : Nat)
    (h : ∀ c ∈ db.categories, c.id = id → c.userId ≠ userId) :
    Backend.findCategory db userId id = none := by
  unfold Backend.findCategory
  rw [List.find?_eq_none]
  intro c hc
  simp only [List.mem_filter, decide_eq_true_eq] at hc
  simp only [decide_eq_true_eq]
  exact fun hid => h c hc.1 hid hc.2

/-- C2: a Note or Category identifier that exists but belongs to a different
owner than the requesting principal yields 404 from every read, update and
delete - never 403 and never a success status - because the ownership filter
runs before the identifier lookup. Spec-modelled: the backend queryset
scoping is embedded from docs/backend/notes_spec.md section 6.1. -/
theorem crossOwner_access_returns_404 (db : Backend.Db) (userId id : Nat)
    (_hnote : ∃ n ∈ db.notes, n.id = id ∧ n.userId ≠ userId)
    (_hcat : ∃ c ∈ db.categories, c.id = id ∧ c.userId ≠ userId)
    (honlyN : ∀ n ∈ db.notes, n.id = id → n.userId ≠ userId)
    (honlyC : ∀ c ∈ db.categories, c.id = id → c.userId ≠ userId) :
    Backend.retrieveNoteStatus db userId id = 404 ∧
    Backend.updateNoteStatus db userId id = 404 ∧
    Backend.deleteNoteStatus db userId id = 404 ∧
    Backend.retrieveCategoryStatus db userId id = 404 ∧
    Backend.updateCategoryStatus db userId id = 404 ∧
    Backend.deleteCategoryStatus db userId id = 404 := by
  have hn := findNote_eq_none db userId id honlyN
  have hc := findCategory_eq_none db userId id honlyC
  refine ⟨?_, ?_, ?_, ?_, ?_, ?_⟩ <;>
    simp [Backend.retrieveNoteStatus, Backend.updateNoteStatus,
      Backend.deleteNoteStatus, Backend.retrieveCategoryStatus,
      Backend.updateCategoryStatus, Backend.deleteCategoryStatus, hn, hc]

/-- Witness for C2: note 5 and category 5 belong to owner 1; owner 2 gets 404
from all six operations. -/
theorem crossOwner_access_returns_404_witness :
    Backend.retrieveNoteStatus ⟨[⟨5, 1, none⟩], [⟨5, 1, "Work", "#6366f1"⟩]⟩ 2 5 = 404 ∧
    Backend.updateNoteStatus ⟨[⟨5, 1, none⟩], [⟨5, 1, "Work", "#6366f1"⟩]⟩ 2 5 = 404 ∧
    Backend.deleteNoteStatus ⟨[⟨5, 1, none⟩], [⟨5, 1, "Work", "#6366f1"⟩]⟩ 2 5 = 404 ∧
    Backend.retrieveCategoryStatus ⟨[⟨5, 1, none⟩], [⟨5, 1, "Work", "#6366f1"⟩]⟩ 2 5 = 404 ∧
    Backend.updateCategoryStatus ⟨[⟨5, 1, none⟩], [⟨5, 1, "Work", "#6366f1"⟩]⟩ 2 5 = 404 ∧
    Backend.deleteCategoryStatus ⟨[⟨5, 1, none⟩], [⟨5, 1, "Work", "#6366f1"⟩]⟩ 2 5 = 404 :=
  crossOwner_access_returns_404 ⟨[⟨5, 1, none⟩], [⟨5, 1, "Work", "#6366f1"⟩]⟩ 2 5
    ⟨⟨5, 1, none⟩, by decide, rfl, by decide⟩
    ⟨⟨5, 1, "Work", "#6366f1"⟩, by simp, rfl, by decide⟩
    (by decide)
    (by intro c hcm hid; simp at hcm; subst hcm; decide)

/-- C5: category-name uniqueness is scoped per owner. With owner `a` already
holding a category `name`, owner `a` creating `name` again fails with 400 and
writes nothing, while a different owner `b` without such a category succeeds,
leaving both owners with a category of that name. Spec-modelled: the
composite unique constraint and the 400 serializer error are embedded from
docs/backend/notes_spec.md sections 2.1 and 6.3. -/
theorem category_uniqueness_per_owner (db : Backend.Db) (a b : Nat)
    (name color : String)
    (_hab : a ≠ b)
    (hvalid : Backend.validCategoryInput name color = true)
    (hA : db.categories.any (fun c => c.userId = a && c.name = name) = true)
    (hB : db.categories.any (fun c => c.userId = b && c.name = name) = false) :
    Backend.createCategory db a name color = .error 400 ∧
    ∃ db2, Backend.createCategory db b name color = .ok db2 ∧
      db2.categories.any (fun c => c.userId = a && c.name = name) = true ∧
      db2.categories.any (fun c => c.userId = b && c.name = name) = true := by
  constructor
  · unfold Backend.createCategory
    rw [hvalid, hA]
    rfl
  · refine ⟨{ db with categories :=
        db.categories ++ [⟨Backend.freshCategoryId db, b, name, color⟩] }, ?_, ?_, ?_⟩
    · unfold Backend.createCategory
      rw [hvalid, hB]
      rfl
    · simpa [List.any_append] using Or.inl hA
    · simp [List.any_append]

/-- Witness for C5: owners 1 and 2 both end with a category named Work;
owner 1 creating Work again gets 400. -/
theorem category_uniqueness_per_owner_witness :
    Backend.createCategory ⟨[], [⟨1, 1, "Work", "#6366f1"⟩]⟩ 1 "Work" "#a1b2c3" = .error 400 ∧
    ∃ db2, Backend.createCategory ⟨[], [⟨1, 1, "Work", "#6366f1"⟩]⟩ 2 "Work" "#a1b2c3" = .ok db2 ∧
      db2.categories.any (fun c => c.userId = 1 && c.name = "Work") = true ∧
      db2.categories.any (fun c => c.userId = 2 && c.name = "Work") = true :=
  category_uniqueness_per_owner ⟨[], [⟨1, 1, "Work", "#6366f1"⟩]⟩ 1 2 "Work" "#a1b2c3"
    (by decide) (by decide) (by decide) (by decide)

theorem rateCount_store_same (entries : List ((String × Nat) × Nat))
    (key : String × Nat) (v : Nat) :
    Backend.rateCount (Backend.rateStore entries key v) key = v := by
  unfold Backend.rateStore Backend.rateCount
  rw [if_pos rfl]

theorem rateCount_filter_ne (entries : List ((String × Nat) × Nat))
    (key key2 : String × Nat) (h : key2 ≠ key) :
    Backend.rateCount (entries.filter (fun p => p.1 ≠ key)) key2 =
      Backend.rateCount entries key2 := by
  induction entries with
  | nil => rfl
  | cons p rest ih =>
      obtain ⟨k, v⟩ := p
      rw [List.filter_cons]
      by_cases hk : k = key
      · rw [if_neg (by simp [hk])]
        rw [ih]
        have hne : ¬(k = key2) := fun he => h (he.symm.trans hk)
        simp only [Backend.rateCount]
        rw [if_neg hne]
      · rw [if_pos (by simp [hk])]
        simp only [Backend.rateCount]
        by_cases hk2 : k = key2
        · rw [if_pos hk2, if_pos hk2]
        · rw [if_neg hk2, if_neg hk2, ih]

theorem rateCount_store_ne (entries : List ((String × Nat) × Nat))
    (key key2 : String × Nat) (v : Nat) (h : key2 ≠ key) :
    Backend.rateCount (Backend.rateStore entries key v) key2 =
      Backend.rateCount entries key2 := by
  unfold Backend.rateStore
  simp only [Backend.rateCount]
  rw [if_neg (fun he => h he.symm)]
  exact rateCount_filter_ne entries key key2 h

theorem rateRun_same_window (scope : String) (limit w widx : Nat) :
    ∀ (times : List Nat) (st : Backend.RateState) (c0 : Nat),
      (∀ t ∈ times, t / w = widx) →
      Backend.rateCount st.counts (scope, widx) = c0 →
      (∀ i t, times.get? i = some t →
          (Backend.rateRun st scope limit w times).1.get? i =
            some (if limit < c0 + i + 1 then
                    Backend.RateResult.throttled (w - t % w)
                  else Backend.RateResult.allowed)) ∧
      Backend.rateCount (Backend.rateRun st scope limit w times).2.counts
          (scope, widx) = c0 + times.length ∧
      (∀ widx2, widx2 ≠ widx →
          Backend.rateCount (Backend.rateRun st scope limit w times).2.counts
              (scope, widx2) = Backend.rateCount st.counts (scope, widx2)) := by
  intro times
  induction times with
  | nil =>
      intro st c0 _ h0
      refine ⟨?_, by simpa [Backend.rateRun] using h0, ?_⟩
      · intro i t ht
        simp at ht
      · intro widx2 _
        rfl
  | cons t rest ih =>
      intro st c0 hwin h0
      have ht : t / w = widx := hwin t (List.mem_cons_self t rest)
      have hsnd : (Backend.rateCheck st scope limit w t).2 =
          ⟨Backend.rateStore st.counts (scope, widx) (c0 + 1)⟩ := by
        unfold Backend.rateCheck
        dsimp only
        rw [ht, h0]
        split <;> rfl
      have hfst : (Backend.rateCheck st scope limit w t).1 =
          (if limit < c0 + 1 then Backend.RateResult.throttled (w - t % w)
           else Backend.RateResult.allowed) := by
        unfold Backend.rateCheck
        dsimp only
        rw [ht, h0]
        split <;> simp_all
      have hcount2 : Backend.rateCount
          (Backend.rateCheck st scope limit w t).2.counts (scope, widx) = c0 + 1 := by
        rw [hsnd]
        exact rateCount_store_same st.counts (scope, widx) (c0 + 1)
      obtain ⟨ihres, ihcount, ihother⟩ :=
        ih (Backend.rateCheck st scope limit w t).2 (c0 + 1)
          (fun t2 ht2 => hwin t2 (List.mem_cons_of_mem t ht2)) hcount2
      have hrun : Backend.rateRun st scope limit w (t :: rest) =
          ((Backend.rateCheck st scope limit w t).1 ::
             (Backend.rateRun (Backend.rateCheck st scope limit w t).2
               scope limit w rest).1,
           (Backend.rateRun (Backend.rateCheck st scope limit w t).2
               scope limit w rest).2) := rfl
      refine ⟨?_, ?_, ?_⟩
      · intro i t2 hit
        cases i with
        | zero =>
            cases hit
            rw [hrun]
            simp only [List.get?_cons_zero, hfst, Nat.add_zero]
        | succ i =>
            rw [hrun]
            simp only [List.get?_cons_succ] at hit ⊢
            have := ihres i t2 hit
            rw [this]
            have harith : c0 + 1 + i + 1 = c0 + (i + 1) + 1 := by omega
            rw [harith]
      · rw [hrun]
        simp only [List.length_cons]
        rw [ihcount]
        omega
      · intro widx2 h2
        rw [hrun]
        rw [ihother widx2 h2, hsnd]
        exact rateCount_store_ne st.counts (scope, widx) (scope, widx2) (c0 + 1)
          (fun he => h2 (congrArg Prod.snd he))

/-- C6: within one window (all request times sharing the window index, the
counter for that window starting absent), the first L requests from a scope
are allowed and the request after them is throttled, with the retry-after
hint derived from the remaining TTL of the window key; the post-increment
count of the window key ends at L+1; and after the window rolls over the
fresh window key counts from zero, so a request in a later window is allowed
again. Spec-modelled: the counter-with-TTL throttle is embedded from
docs/backend/auth_spec.md section 5.3 and the specification's rate-limiter
design. -/
theorem rate_limit_window_behavior (scope : String) (L w widx : Nat)
    (times : List Nat) (st0 : Backend.RateState)
    (_hw : 0 < w)
    (hlen : times.length = L + 1)
    (hwin : ∀ t ∈ times, t / w = widx)
    (h0 : ∀ widx2, widx ≤ widx2 →
        Backend.rateCount st0.counts (scope, widx2) = 0) :
    (∀ i t, i < L → times.get? i = some t →
        (Backend.rateRun st0 scope L w times).1.get? i =
          some Backend.RateResult.allowed) ∧
    (∀ t, times.get? L = some t →
        (Backend.rateRun st0 scope L w times).1.get? L =
          some (Backend.RateResult.throttled (w - t % w))) ∧
    Backend.rateCount (Backend.rateRun st0 scope L w times).2.counts
        (scope, widx) = L + 1 ∧
    (∀ t2, widx < t2 / w → 1 ≤ L →
        (Backend.rateCheck (Backend.rateRun st0 scope L w times).2
            scope L w t2).1 = Backend.RateResult.allowed) := by
  obtain ⟨hres, hcount, hother⟩ :=
    rateRun_same_window scope L w widx times st0 0 hwin (h0 widx le_rfl)
  refine ⟨?_, ?_, ?_, ?_⟩
  · intro i t hi hit
    rw [hres i t hit, if_neg (by omega)]
  · intro t hit
    rw [hres L t hit, if_pos (by omega)]
  · rw [hcount, hlen]
    omega
  · intro t2 hlt hL
    have hne : t2 / w ≠ widx := (Nat.ne_of_lt hlt).symm
    have hcnt : Backend.rateCount
        (Backend.rateRun st0 scope L w times).2.counts (scope, t2 / w) = 0 := by
      rw [hother (t2 / w) hne]
      exact h0 (t2 / w) (Nat.le_of_lt hlt)
    unfold Backend.rateCheck
    dsimp only
    rw [hcnt, if_neg (by omega)]

/-- Witness for C6: limit 2, window 10 seconds, requests at times 0, 3 and 7:
the first two are allowed, the third is throttled with 3 seconds of the
window left, and a request at time 15 (the next window) is allowed again. -/
theorem rate_limit_window_behavior_witness :
    (∀ i t, i < 2 → [0, 3, 7].get? i = some t →
        (Backend.rateRun ⟨[]⟩ "user:1" 2 10 [0, 3, 7]).1.get? i =
          some Backend.RateResult.allowed) ∧
    (∀ t, [0, 3, 7].get? 2 = some t →
        (Backend.rateRun ⟨[]⟩ "user:1" 2 10 [0, 3, 7]).1.get? 2 =
          some (Backend.RateResult.throttled (10 - t % 10))) ∧
    Backend.rateCount (Backend.rateRun ⟨[]⟩ "user:1" 2 10 [0, 3, 7]).2.counts
        ("user:1", 0) = 2 + 1 ∧
    (∀ t2, 0 < t2 / 10 → 1 ≤ 2 →
        (Backend.rateCheck (Backend.rateRun ⟨[]⟩ "user:1" 2 10 [0, 3, 7]).2
            "user:1" 2 10 t2).1 = Backend.RateResult.allowed) :=
  rate_limit_window_behavior "user:1" 2 10 0 [0, 3, 7] ⟨[]⟩
    (by decide) rfl (by decide) (fun _ _ => rfl)

theorem cacheGet_filter_self (entries : List (Nat × Nat)) (cid : Nat) :
    Backend.cacheGet (entries.filter (fun p => p.1 ≠ cid)) cid = none := by
  induction entries with
  | nil => rfl
  | cons p rest ih =>
      obtain ⟨k, v⟩ := p
      rw [List.filter_cons]
      by_cases hk : k = cid
      · rw [if_neg (by simp [hk])]
        exact ih
      · rw [if_pos (by simp [hk])]
        simp only [Backend.cacheGet]
        rw [if_neg hk]
        exact ih

theorem cacheGet_evict (c : Backend.CacheState) (cid : Nat) :
    Backend.cacheGet (Backend.cacheEvict c cid).entries cid = none :=
  cacheGet_filter_self c.entries cid

/-- C7 counterexample: with two notes of owner 1 in category 1 in the backing
store and the cache entry for category 1 absent, the documented increment
(`cache.incr`, increment or initialize to one) writes 1, while the claim's
recompute-then-delta increment would write the true count plus one, 3. -/
theorem aggregate_incr_miss_counterexample :
    Backend.incrCount ⟨[]⟩ 1 = Backend.cacheSet ⟨[]⟩ 1 1 ∧
    Backend.trueCount ⟨[⟨1, 1, some 1⟩, ⟨2, 1, some 1⟩], []⟩ 1 1 = 2 ∧
    Backend.incrCountClaimed ⟨[⟨1, 1, some 1⟩, ⟨2, 1, some 1⟩], []⟩ 1 ⟨[]⟩ 1 =
      Backend.cacheSet ⟨[]⟩ 1 3 ∧
    Backend.incrCount ⟨[]⟩ 1 ≠
      Backend.incrCountClaimed ⟨[⟨1, 1, some 1⟩, ⟨2, 1, some 1⟩], []⟩ 1 ⟨[]⟩ 1 :=
  ⟨rfl, rfl, rfl, by decide⟩

/-- C7 (amended): after any finite sequence of note creations, deletions and
reassignments, once the cache entry's TTL has elapsed (the entry is gone), a
read recomputes and returns exactly the true backing-store count of notes
referencing the category, repopulating the entry; in general a read on a
miss returns the true count and writes it with the refresh TTL; and the
delta operations on a missing entry do not recompute: increment initializes
it to one and decrement to zero (the documented `cache.incr` and
`cache.decr` behaviour), the recompute fallback belonging to the read path
alone. -/
theorem aggregate_cache_self_heals (userId cid : Nat) (db0 : Backend.Db)
    (c0 : Backend.CacheState) (ops : List Backend.NoteOp) :
    (Backend.readCount (Backend.applyOps userId (db0, c0) ops).1 userId
        (Backend.cacheEvict (Backend.applyOps userId (db0, c0) ops).2 cid) cid).1 =
      Backend.trueCount (Backend.applyOps userId (db0, c0) ops).1 userId cid ∧
    (∀ (db : Backend.Db) (c : Backend.CacheState),
        Backend.cacheGet c.entries cid = none →
        Backend.readCount db userId c cid =
          (Backend.trueCount db userId cid,
           Backend.cacheSet c cid (Backend.trueCount db userId cid))) ∧
    (∀ c : Backend.CacheState, Backend.cacheGet c.entries cid = none →
        Backend.incrCount c cid = Backend.cacheSet c cid 1) ∧
    (∀ c : Backend.CacheState, Backend.cacheGet c.entries cid = none →
        Backend.decrCount c cid = Backend.cacheSet c cid 0) := by
  refine ⟨?_, ?_, ?_, ?_⟩
  · unfold Backend.readCount
    rw [cacheGet_evict]
  · intro db c h
    unfold Backend.readCount
    rw [h]
  · intro c h
    unfold Backend.incrCount
    rw [h]
  · intro c h
    unfold Backend.decrCount
    rw [h]

end NotesApp
